import Mathlib

/-!
Verification development for the ERI form-filling automation repository.

The repository drives a web form through Selenium.  The logic that the
claims concern — input parsing, result-table extraction, the batch loop,
the step sequencer, and cookie/session handling — is embedded shallowly
below.  Browser effects (element lookup, clicks) are modelled as explicit
data (page tables, step outcomes) threaded through otherwise pure
functions; a Python function that can swallow an exception and return
`None` is modelled with `Option`.
-/

set_option maxRecDepth 40000

namespace ERI

/-! ### Basic Python-string helpers (shared by several source functions) -/

/-- `Char.isWhitespace`, standing in for Python's notion of whitespace in
`str.strip()`. -/
def isWS (c : Char) : Bool := c.isWhitespace

/-- The character list of Python `s.strip()`: whitespace removed from both
ends, nothing removed in the middle. -/
def trimChars (l : List Char) : List Char :=
  ((l.dropWhile isWS).reverse.dropWhile isWS).reverse

/-- Python `s.strip()`. -/
def pyStrip (s : String) : String := String.mk (trimChars s.data)

/-- Does `sub` occur as a leading segment of `l`? (helper for substring
containment). -/
def matchSeg : List Char → List Char → Bool
  | [], _ => true
  | _ :: _, [] => false
  | a :: as, b :: bs => a == b && matchSeg as bs

/-- Does `sub` occur contiguously anywhere inside `l`?  This is Python's
`sub in s` on strings. -/
def occursIn (sub : List Char) : List Char → Bool
  | [] => matchSeg sub []
  | b :: bs => matchSeg sub (b :: bs) || occursIn sub bs

/-- Python `sub in s`. -/
def pyContains (s sub : String) : Bool := occursIn sub.data s.data

/-- Python `s.lower()` (ASCII case folding, which is all the source uses). -/
def pyLower (s : String) : String := String.mk (s.data.map Char.toLower)

/-- Accumulate a decimal digit string; `none` when a non-digit appears. -/
def parseDigitsAux : List Char → Nat → Option Nat
  | [], acc => some acc
  | c :: cs, acc =>
    if c.isDigit then parseDigitsAux cs (acc * 10 + (c.toNat - 48)) else none

/-- Sign-and-digits integer parse on a char list (empty input fails). -/
def pyIntCore : List Char → Option Int
  | [] => none
  | '-' :: rest =>
    (if rest.isEmpty then none else parseDigitsAux rest 0).map (fun n => -(n : Int))
  | '+' :: rest =>
    (if rest.isEmpty then none else parseDigitsAux rest 0).map (fun n => (n : Int))
  | l => (parseDigitsAux l 0).map (fun n => (n : Int))

/-- Python `int(s)` on a decimal string: surrounding whitespace ignored,
optional sign, otherwise all characters must be digits; `none` models the
`ValueError` raised on anything else.  (Digit-group underscores, which the
inputs never use, are not modelled.) -/
def pyInt (s : String) : Option Int := pyIntCore (trimChars s.data)

/-- Python `int(x)` where `x` is an optional string: `int(None)` raises
`TypeError`, modelled as `none`. -/
def pyIntOpt : Option String → Option Int
  | none => none
  | some s => pyInt s

/-- Python truthiness fallback `x or "N/A"` on an optional string: `None`
and the empty string are falsy. -/
def pyOrNA : Option String → String
  | none => "N/A"
  | some s => if s = "" then "N/A" else s

/-! ### `parse_user_input` (V0.py lines 153-212, V2.py lines 244-303)

The parser splits the input on commas, keeping a comma when the part
accumulated so far contains `"Dallas"` but not `"Texas"` (the source's
hard-coded special case for the location value `"Dallas, Texas"`), then
interprets each part as a `Key=Value` pair or a bare statistic token.
The `in_location` flag in the source is initialised to `False` and never
set, so the second branch fires on every comma not caught by the first.
-/

/-- The comma-keeping condition of `parse_user_input`:
`'Dallas' in current_part and not 'Texas' in current_part`. -/
def dallasComma (cur : List Char) : Bool :=
  occursIn "Dallas".data cur && !(occursIn "Texas".data cur)

/-- One character of the splitting loop of `parse_user_input`.  State:
parts emitted so far and the accumulated `current_part`. -/
def splitStep (st : List String × List Char) (c : Char) : List String × List Char :=
  if c = ',' ∧ dallasComma st.2 = true then
    (st.1, st.2 ++ [c])
  else if c = ',' then
    if trimChars st.2 = [] then st
    else (st.1 ++ [String.mk (trimChars st.2)], [])
  else
    (st.1, st.2 ++ [c])

/-- The comma-splitting loop of `parse_user_input`, including the final
flush of a non-blank `current_part`. -/
def splitParts (s : String) : List String :=
  let st := s.data.foldl splitStep ([], [])
  if trimChars st.2 = [] then st.1 else st.1 ++ [String.mk (trimChars st.2)]

/-- The record assembled by `parse_user_input`: each field is `None` until
assigned (the automation object initialises them to `None`). -/
structure ParsedInput where
  eri_code : Option String
  location : Option String
  revenue : Option String
  industry : Option String
  years_experience : Option String
  data_type : Option String
deriving DecidableEq, Repr

/-- All-`None` initial field state of the automation object. -/
def emptyParsed : ParsedInput := ⟨none, none, none, none, none, none⟩

/-- Assignment of one `key = value` pair to the record (the if/elif chain
over the five known keys; unknown keys are ignored). -/
def applyKV (st : ParsedInput) (key value : String) : ParsedInput :=
  if key = "ERI Code" then { st with eri_code := some value }
  else if key = "ERI Location" then { st with location := some value }
  else if key = "Revenue" then { st with revenue := some value }
  else if key = "Industry" then { st with industry := some value }
  else if key = "Years of Experience" then { st with years_experience := some value }
  else st

/-- Python `part.split('=', 1)`: the characters before the first `'='` and
the characters after it. -/
def splitEqOnce : List Char → List Char × List Char
  | [] => ([], [])
  | c :: cs =>
    if c = '=' then ([], cs)
    else
      let r := splitEqOnce cs
      (c :: r.1, r.2)

/-- Processing of one comma-separated part: `Key=Value` assignment when it
contains `'='`, otherwise a bare statistic token from the fixed list. -/
def applyPart (st : ParsedInput) (part : String) : ParsedInput :=
  if occursIn "=".data part.data then
    applyKV st (String.mk (trimChars (splitEqOnce part.data).1))
      (String.mk (trimChars (splitEqOnce part.data).2))
  else if part = "Mean" ∨ part = "Median" ∨ part = "25th Percentile" ∨
      part = "75th Percentile" then
    { st with data_type := some part }
  else st

/-- `parse_user_input` run on fresh (all-`None`) automation state.  The
source mutates `self.*` and returns `True`; the record of fields is the
meaningful result, and no statement in the body can raise. -/
def parse_user_input (input : String) : ParsedInput :=
  (splitParts input).foldl applyPart emptyParsed

/-- Modelled from the spec: the repository has no serializer back into the
`Key=Value` grammar, so re-serialization (needed for the spec's round-trip
property) is written from the grammar in section 6 of the spec: the five
keyed fields in order, comma-separated, followed by the bare statistic
token. -/
def serializeRecord (code loc rev ind yrs stat : String) : String :=
  "ERI Code=" ++ code ++ ", ERI Location=" ++ loc ++ ", Revenue=" ++ rev ++
    ", Industry=" ++ ind ++ ", Years of Experience=" ++ yrs ++ ", " ++ stat

/-- Modelled from the spec: re-serialize a fully populated parsed record
(see `serializeRecord`); records missing a field or statistic have no
serialization. -/
def reserialize (p : ParsedInput) : Option String :=
  match p with
  | ⟨some c, some l, some r, some i, some y, some d⟩ =>
    some (serializeRecord c l r i y d)
  | _ => none

/-- Is this the head/last character of a value that survives
`str.strip()` unchanged? (`none` means the value is empty). -/
def nonWSOpt : Option Char → Bool
  | none => false
  | some c => !isWS c

/-- A field value that round-trips through the grammar: non-empty, no
surrounding whitespace, and containing neither a comma (the field
separator) nor the letter `'D'` (which could trigger the parser's
hard-coded `"Dallas"` comma special case; none of the grammar's key
literals or statistic tokens contain a `'D'`). -/
def plainValue (v : String) : Bool :=
  !v.data.isEmpty && nonWSOpt v.data.head? && nonWSOpt v.data.getLast? &&
    v.data.all (fun ch => ch != ',' && ch != 'D')

/-! ### `extract_years_experience_data` (V0.py lines 272-357, V2.py lines 373-459)

The rendered results page is modelled as the data the extractor can read:
the "All Incumbent Average" summary element (`none` when the element
lookup raises) and the result table as a list of rows of cell texts.  A
row index past the end of the list, or a row with no first cell, is the
`NoSuchElementException` on `td[1]` that breaks the scan; a matching row
whose statistic cell is missing is the caught per-cell failure after
which the loop proceeds to the next row.
-/

/-- The results page as seen by the extractor. -/
structure PageTable where
  allIncumbent : Option String
  rows : List (List String)
deriving DecidableEq, Repr

/-- The row scan shared verbatim by V0.py lines 301-336 and V2.py lines
412-444: for up to `fuel` rows (the source iterates `range(1, 20)`, so 19
rows) read `td[1]`, breaking when it is missing; on the first row whose
stripped text equals `target`, read column `col` and return its stripped
text, or continue scanning when that cell read fails.  `"Not found"` is
the sentinel the scan was initialised with. -/
def scan_rows (target : String) (col : Nat) : Nat → List (List String) → String
  | 0, _ => "Not found"
  | _ + 1, [] => "Not found"
  | fuel + 1, row :: rest =>
    match row.head? with
    | none => "Not found"
    | some yt =>
      if pyStrip yt = target then
        match row.get? (col - 1) with
        | some v => pyStrip v
        | none => scan_rows target col fuel rest
      else scan_rows target col fuel rest

/-- The statistic-to-column choice of V0.py lines 315-320: `"mean"` (after
lowering) reads `td[4]`, any statistic whose lowered text contains
`"75th"` or `"percentile"` reads `td[5]`, anything else reads `td[4]`. -/
def v0_statColumn (dt : String) : Nat :=
  if pyLower dt = "mean" then 4
  else if occursIn "75th".data (pyLower dt).data ∨
      occursIn "percentile".data (pyLower dt).data then 5
  else 4

/-- The value dictionary V0's extractor returns (the echoed input fields
are carried unchanged and omitted here). -/
structure V0Extract where
  all_incumbent_average : String
  mean_value : String
deriving DecidableEq, Repr

/-- V0.py `extract_years_experience_data`: always reads the summary
element (sentinel on failure), then unconditionally runs
`int(self.years_experience)` — which raises on `None` or a non-numeric
string, is caught by the outer `except`, and makes the method return
`None` — and finally scans the table at `v0_statColumn`. -/
def v0_extract_years_experience_data (years_experience : Option String)
    (data_type : String) (page : PageTable) : Option V0Extract :=
  let allInc := match page.allIncumbent with
    | some t => pyStrip t
    | none => "Not found"
  match pyIntOpt years_experience with
  | none => none
  | some target =>
    some { all_incumbent_average := allInc,
           mean_value := scan_rows (toString target) (v0_statColumn data_type) 19 page.rows }

/-- The outcome dictionary V2's extractor returns. -/
structure V2Extract where
  eri_code : Option String
  location : Option String
  industry : Option String
  revenue : Option String
  years_experience : String
  data_type : String
  extracted_value : String
deriving DecidableEq, Repr

/-- V2.py `extract_years_experience_data`: `"All Incumbent Average"` reads
the summary element; `"Mean"` / `"75th Percentile"` return the sentinel
outcome early when `years_experience is None`, otherwise convert it with
`int(...)` (an empty string raises, the outer `except` returns `None`)
and scan column 4 resp. 5; every other statistic falls through with the
`"Not found"` sentinel and no table access. -/
def v2_extract_years_experience_data (eri_code location industry revenue : Option String)
    (years_experience : Option String) (data_type : String) (page : PageTable) :
    Option V2Extract :=
  if data_type = "All Incumbent Average" then
    let v := match page.allIncumbent with
      | some t => pyStrip t
      | none => "Not found"
    some { eri_code := eri_code, location := location, industry := industry,
           revenue := revenue, years_experience := pyOrNA years_experience,
           data_type := data_type, extracted_value := v }
  else if data_type = "Mean" ∨ data_type = "75th Percentile" then
    match years_experience with
    | none =>
      some { eri_code := eri_code, location := location, industry := industry,
             revenue := revenue, years_experience := "N/A",
             data_type := data_type, extracted_value := "Not found" }
    | some ys =>
      match pyInt ys with
      | none => none
      | some target =>
        let col := if data_type = "Mean" then 4 else 5
        some { eri_code := eri_code, location := location, industry := industry,
               revenue := revenue, years_experience := pyOrNA (some ys),
               data_type := data_type,
               extracted_value := scan_rows (toString target) col 19 page.rows }
  else
    some { eri_code := eri_code, location := location, industry := industry,
           revenue := revenue, years_experience := pyOrNA years_experience,
           data_type := data_type, extracted_value := "Not found" }

/-! ### Batch runner (V2.py `run_multi_automation`, lines 755-819)

One record's run is summarised by what the claims depend on: whether all
its interaction steps returned `True` (`stepsOk`) and what
`extract_years_experience_data` returned for it (`extraction`, `none`
modelling the extractor's `None`).
-/

/-- Outcome of driving the UI for one record. -/
structure RowBehavior where
  stepsOk : Bool
  extraction : Option V2Extract
deriving DecidableEq, Repr

/-- V2.py `run_complete_automation` (lines 629-753) at the outcome level:
a failed step returns `False` at once; otherwise the extraction result is
appended to `all_data` when it is not `None`, and the method returns
`True` either way. -/
def run_complete_automation (b : RowBehavior) (all_data : List V2Extract) :
    Bool × List V2Extract :=
  if b.stepsOk then
    match b.extraction with
    | some d => (true, all_data ++ [d])
    | none => (true, all_data)
  else (false, all_data)

/-- V2.py `run_subsequent_automation` (lines 503-627) at the outcome
level: a failed step returns `False` at once; on success the extraction
result is appended and the method returns `True`, except that a `None`
extraction returns `False` with nothing appended. -/
def run_subsequent_automation (b : RowBehavior) (all_data : List V2Extract) :
    Bool × List V2Extract :=
  if b.stepsOk then
    match b.extraction with
    | some d => (true, all_data ++ [d])
    | none => (false, all_data)
  else (false, all_data)

/-- V2.py `run_multi_automation`: the first record runs
`run_complete_automation`; only if that returns `True` are the remaining
records run (each failure merely printed) and `all_data` saved to the CSV
result log.  The value is the list of rows the log receives, in order
(when the first record fails, or nothing was extracted, the log receives
nothing). -/
def run_multi_automation (rows : List RowBehavior) : List V2Extract :=
  match rows with
  | [] => []
  | first :: rest =>
    let r1 := run_complete_automation first []
    if r1.1 then
      rest.foldl (fun acc b => (run_subsequent_automation b acc).2) r1.2
    else []

/-! ### Step sequencer (V2.py `run_complete_automation` / `run_subsequent_automation`)

The fixed step lists the two methods execute, as descriptors, and a
runner recording the abort-on-first-failure control flow. -/

/-- The interaction kinds appearing in the sequences. -/
inductive StepKind where
  | click
  | keyboardSelect
  | typeText
  | typeAndSubmit
deriving DecidableEq, Repr

/-- One step: its log name, target XPath (empty for the keyboard-only
step), interaction kind and typed value if any. -/
structure Step where
  name : String
  xpath : String
  kind : StepKind
  value : Option String
deriving DecidableEq, Repr

/-- The per-record inputs the sequencer types into the form. -/
structure InputRecord where
  eri_code : String
  location : String
  revenue : String
  industry : String
deriving DecidableEq, Repr

def step1 : Step :=
  ⟨"Step 1: First link", "/html/body/div[1]/div[3]/div/div/div/div[1]/div[3]/a",
    .click, none⟩

def step2 : Step :=
  ⟨"Step 2: Second button",
    "/html/body/div[1]/div[3]/div[1]/div/div[1]/div/div/div[2]/div/div[2]/button",
    .click, none⟩

def step3 : Step :=
  ⟨"Step 3: Dropdown button",
    "/html/body/div[59]/div/div[3]/table/tbody/tr/td[1]/div[2]/span/span",
    .click, none⟩

def step4 : Step :=
  ⟨"Step 4: Keyboard selection", "", .keyboardSelect, none⟩

def step5 (code : String) : Step :=
  ⟨"Step 5: Type ERI Code",
    "/html/body/div[59]/div/div[3]/table/tbody/tr/td[1]/div[1]/div[2]/input",
    .typeText, some code⟩

def step6 : Step :=
  ⟨"Step 6: Confirmation button",
    "/html/body/div[59]/div/div[4]/div/div[2]/button[2]",
    .click, none⟩

def step7 (loc : String) : Step :=
  ⟨"Step 7: Type Location",
    "/html/body/div[1]/div[3]/div[1]/div/div[1]/div/div/div[36]/div[1]/div[1]/div[1]/div/input",
    .typeAndSubmit, some loc⟩

def step8 (ind : String) : Step :=
  ⟨"Step 8: Type Industry",
    "/html/body/div[1]/div[3]/div[1]/div/div[1]/div/div/div[38]/div[2]/div[1]/input[2]",
    .typeAndSubmit, some ind⟩

def step9 (rev : String) : Step :=
  ⟨"Step 9: Type Revenue",
    "/html/body/div[1]/div[3]/div[1]/div/div[1]/div/div/div[40]/div[2]/div[1]/div[1]/input",
    .typeAndSubmit, some rev⟩

/-- Digits already reversed, grouped in threes with `','` between groups
(helper for `commaFormat`). -/
def groupThrees : List Char → List Char
  | [] => []
  | [a] => [a]
  | [a, b] => [a, b]
  | [a, b, c] => [a, b, c]
  | a :: b :: c :: rest => a :: b :: c :: ',' :: groupThrees rest

/-- Python `f"{n:,}"` on an integer: thousands separators every three
digits. -/
def commaFormat (n : Int) : String :=
  let sign := if n < 0 then "-" else ""
  sign ++ String.mk ((groupThrees (toString n.natAbs).data.reverse).reverse)

/-- The full 9-step sequence of V2.py `run_complete_automation` lines
636-726.  Step 9 types `f"{int(self.revenue):,}"`; when `int` raises on
the revenue string the outer `except` makes the run fail before typing,
modelled as `none`. -/
def fullSteps (r : InputRecord) : Option (List Step) :=
  match pyInt r.revenue with
  | none => none
  | some n =>
    some [step1, step2, step3, step4, step5 r.eri_code, step6,
          step7 r.location, step8 r.industry, step9 (commaFormat n)]

/-- The abbreviated sequence of V2.py `run_subsequent_automation` lines
532-603: steps 2 through 9, with the revenue typed raw (no
thousands-separator formatting). -/
def subsequentSteps (r : InputRecord) : List Step :=
  [step2, step3, step4, step5 r.eri_code, step6,
   step7 r.location, step8 r.industry, step9 r.revenue]

/-- A step stripped to name, XPath and kind (dropping the typed value). -/
def stepShape (s : Step) : String × String × StepKind := (s.name, s.xpath, s.kind)

/-- The sequencing control flow of both run methods: the first step whose
interaction returns `false` (`none` when all succeed). -/
def runSteps (perform : Step → Bool) : List Step → Option Step
  | [] => none
  | s :: rest => if perform s then runSteps perform rest else some s

/-- The steps actually executed by the sequencer: everything up to and
including the first failing step. -/
def executedSteps (perform : Step → Bool) : List Step → List Step
  | [] => []
  | s :: rest => if perform s then s :: executedSteps perform rest else [s]

/-! ### Session/cookie handling (erieri_login_selenium2.py) -/

/-- A typed Python value as found in the `expiry` field of a stored
cookie: a string or a number (`isinstance(..., (str, type(None)))` also
treats an absent field as `None`; absence and `None` are collapsed into
`Option.none` on the `expiry` field). -/
inductive PyVal where
  | pstr (s : String)
  | pint (n : Int)
deriving DecidableEq, Repr

/-- A stored cookie record, with the fields `_sanitize_cookie` and
`_add_cookies_for_host` inspect. -/
structure Cookie where
  name : String
  value : String
  domain : Option String
  expiry : Option PyVal
  sameSite : Option String
  hostOnly : Option Bool
deriving DecidableEq, Repr

/-- Is the cookie's `expiry` a string or `None`/absent? (the condition
under which `_sanitize_cookie` pops the field). -/
def expiryIsStrOrNone : Option PyVal → Bool
  | none => true
  | some (.pstr _) => true
  | some (.pint _) => false

/-- `_sanitize_cookie` (lines 96-104): drop a string/absent/`None` expiry
field, and always drop `sameSite` and `hostOnly`; the cookie record
itself is kept. -/
def sanitize_cookie (c : Cookie) : Cookie :=
  let c1 := if expiryIsStrOrNone c.expiry then { c with expiry := none } else c
  { c1 with sameSite := none, hostOnly := none }

/-- Drop characters through the first `"//"`, `none` when absent (helper
for Python `host.split("//", 1)[-1]`). -/
def afterSlashes : List Char → Option (List Char)
  | [] => none
  | '/' :: '/' :: rest => some rest
  | _ :: rest => afterSlashes rest

/-- Python `l.strip("/")` on a char list. -/
def stripSlashes (l : List Char) : List Char :=
  ((l.dropWhile (· = '/')).reverse.dropWhile (· = '/')).reverse

/-- `host.split("//", 1)[-1].strip("/").lower()` from
`_add_cookies_for_host` line 109. -/
def host_netloc (host : String) : String :=
  pyLower (String.mk (stripSlashes ((afterSlashes host.data).getD host.data)))

/-- `(c.get("domain") or "").lstrip(".").lower()` from line 112. -/
def cookieDomainKey (c : Cookie) : String :=
  pyLower (String.mk ((c.domain.getD "").data.dropWhile (· = '.')))

/-- Python `hn.endswith(domain)`. -/
def endsWithSeg (l suf : List Char) : Bool := matchSeg suf.reverse l.reverse

/-- `_add_cookies_for_host` (lines 106-119): sanitize each entry, skip an
entry whose normalised domain is empty, and hand the entry to
`driver.add_cookie` exactly when the domain equals the target netloc or
is a suffix of it.  The value is the list of cookies offered to the
session, in order (`driver.add_cookie`'s own `WebDriverException` is
swallowed per entry and does not filter further here). -/
def add_cookies_for_host (cookies : List Cookie) (host : String) : List Cookie :=
  let hn := host_netloc host
  cookies.filterMap fun raw =>
    let c := sanitize_cookie raw
    let domain := cookieDomainKey c
    if domain = "" then none
    else if domain = hn ∨ endsWithSeg hn.data domain.data then some c
    else none

/-! ### `login_with_selenium` (erieri_login_selenium2.py lines 222-258)

The environment records what each fallback strategy would report for this
execution, plus whether writing the snapshot file would succeed; the
function itself is the pure dispatch over them. -/

/-- Outcomes of the external checks made during session acquisition. -/
structure LoginEnv where
  profileAuth : Bool
  cookiesLoad : Bool
  cookieAuth : Bool
  credsAuth : Bool
  persistOk : Bool
deriving DecidableEq, Repr

/-- Where the browser is left when `login_with_selenium` returns. -/
inductive BrowserPos where
  | home
  | postLogin
  | loginPage
deriving DecidableEq, Repr

/-- What `login_with_selenium` returns: the `is_logged_in` flag, the page
the still-open session is positioned at, and whether the snapshot file
was actually (re)written. -/
structure LoginResult where
  authenticated : Bool
  pos : BrowserPos
  snapshotSaved : Bool
deriving DecidableEq, Repr

/-- The snapshot write inside `_save_fresh_cookies`, which can fail. -/
def write_snapshot (ok : Bool) : Except String Unit :=
  if ok then .ok () else .error "write failed"

/-- `_save_fresh_cookies` (lines 135-139): attempt the write, swallowing
any exception (`try ... except Exception: pass`); reports whether the
snapshot was written and never propagates the error. -/
def save_fresh_cookies (ok : Bool) : Bool :=
  match write_snapshot ok with
  | .ok _ => true
  | .error _ => false

/-- `login_with_selenium`: try the persistent profile, then the cookie
snapshot (load, then re-check authentication), then credential
submission; on the first success persist the snapshot (best effort) and
return `True`; when all three fail navigate to the login endpoint and
return the open session with `False`. -/
def login_with_selenium (e : LoginEnv) : LoginResult :=
  if e.profileAuth then
    ⟨true, .home, save_fresh_cookies e.persistOk⟩
  else if e.cookiesLoad ∧ e.cookieAuth then
    ⟨true, .home, save_fresh_cookies e.persistOk⟩
  else if e.credsAuth then
    ⟨true, .postLogin, save_fresh_cookies e.persistOk⟩
  else
    ⟨false, .loginPage, false⟩

/-! ### Concrete instances used in the theorems below -/

/-- The hard-coded example input of V0.py `main` (line 512). -/
def dallasInput : String :=
  "ERI Code=4006, ERI Location=Dallas, Texas, Revenue=565000000, Industry=All Industries - Diversified, Years of Experience=11, 75th Percentile"

/-- The same input with a different two-part location value. -/
def austinInput : String :=
  "ERI Code=4006, ERI Location=Austin, Texas, Revenue=565000000, Industry=All Industries - Diversified, Years of Experience=11, 75th Percentile"

/-- An input whose location value is the single word `"Dallas"` (a valid
one-part value of the grammar). -/
def bareDallasInput : String :=
  "ERI Code=4006, ERI Location=Dallas, Revenue=565000000, Industry=All Industries - Diversified, Years of Experience=11, 75th Percentile"

/-- The spec's example results table. -/
def exampleTable : List (List String) :=
  [["5", "100", "200", "300", "400"], ["11", "150", "260", "310", "420"]]

/-- A results page carrying the example table. -/
def examplePage : PageTable := ⟨none, exampleTable⟩

/-- A table whose only rows matching key `"11"` sit at positions 20 and
21, past the scan bound. -/
def overBoundTable : List (List String) :=
  (List.replicate 19 ["0", "90", "91", "92", "93"]) ++
    [["11", "150", "260", "310", "420"], ["11", "1", "2", "3", "999"]]

/-- A cookie with a matching domain and a string-typed (unparseable)
expiry. -/
def cookieBadExpiry : Cookie :=
  ⟨"session", "v1", some "online.erieri.com", some (.pstr "Wed, 01 Jan 2025"),
    some "Lax", some true⟩

/-- A cookie scoped to a parent domain of the target host. -/
def cookieParentDomain : Cookie :=
  ⟨"session", "v2", some ".erieri.com", some (.pint 1700000000), none, none⟩

/-- An environment in which all three login strategies fail. -/
def envAllFail : LoginEnv := ⟨false, false, false, false, true⟩

/-- A sample input record (the spec example's fields). -/
def demoRecord : InputRecord :=
  ⟨"4006", "Dallas, Texas", "565000000", "All Industries - Diversified"⟩

/-- The full step list for `demoRecord`. -/
def demoFullList : List Step :=
  [step1, step2, step3, step4, step5 "4006", step6, step7 "Dallas, Texas",
   step8 "All Industries - Diversified", step9 "565,000,000"]

/-- An interaction oracle that fails exactly the dropdown step. -/
def demoPerform (s : Step) : Bool := s.name != "Step 3: Dropdown button"

/-- Two successful extraction outcomes used in batch-runner instances. -/
def demoExtractA : V2Extract :=
  ⟨some "4006", some "Dallas, Texas", some "All Industries - Diversified",
    some "565000000", "11", "75th Percentile", "420"⟩

/-- A second successful extraction outcome. -/
def demoExtractB : V2Extract :=
  ⟨some "4007", some "Austin", some "All Industries - Diversified",
    some "1000000", "5", "Mean", "310"⟩

/-! ## Theorems -/

/-- Repacking a string's character list gives the string back. -/
theorem string_mk_data (s : String) : String.mk s.data = s := by
  cases s
  rfl

/-! ### Claim C5 — the location comma special case -/

/-- Claim C5 (counterexample): the comma special case is keyed on the
literal substring `"Dallas"`, not on two-part location values in general:
for the location value `"Austin, Texas"` the embedded comma is treated as
a field separator and the parsed location is `"Austin"`, not
`"Austin, Texas"`. -/
theorem parse_location_counterexample :
    (parse_user_input austinInput).location = some "Austin" ∧
    (parse_user_input austinInput).location ≠ some "Austin, Texas" := by
  constructor
  · rfl
  · decide

/-- Claim C5 (amended): the parser keeps an embedded comma only when the
part accumulated so far contains `"Dallas"` and not `"Texas"`; for the
spec's example input, whose location value is `"Dallas, Texas"`, the
embedded comma is kept and the input parses to exactly the claimed
record. -/
theorem parse_dallas_example :
    parse_user_input dallasInput =
      ⟨some "4006", some "Dallas, Texas", some "565000000",
        some "All Industries - Diversified", some "11", some "75th Percentile"⟩ := by
  rfl

/-! ### Claim C10 — statistics outside the handled set never scan -/

/-- Claim C10: for a statistic that is neither `"All Incumbent Average"`,
`"Mean"` nor `"75th Percentile"`, V2's extractor returns the outcome with
the `"Not found"` sentinel and its result does not depend on the table
rows at all. -/
theorem v2_other_statistic_no_scan (ec lo ind rev ye : Option String)
    (dt : String) (page : PageTable)
    (h1 : dt ≠ "All Incumbent Average") (h2 : dt ≠ "Mean")
    (h3 : dt ≠ "75th Percentile") :
    v2_extract_years_experience_data ec lo ind rev ye dt page =
      some ⟨ec, lo, ind, rev, pyOrNA ye, dt, "Not found"⟩ ∧
    ∀ rows2, v2_extract_years_experience_data ec lo ind rev ye dt
        ⟨page.allIncumbent, rows2⟩ =
      v2_extract_years_experience_data ec lo ind rev ye dt page := by
  have hor : ¬(dt = "Mean" ∨ dt = "75th Percentile") := by
    rintro (h | h)
    · exact h2 h
    · exact h3 h
  constructor
  · simp only [v2_extract_years_experience_data, if_neg h1, if_neg hor]
  · intro rows2
    simp only [v2_extract_years_experience_data, if_neg h1, if_neg hor]

/-- Witness for `v2_other_statistic_no_scan` at the statistic
`"Median"`. -/
theorem v2_other_statistic_no_scan_witness :
    v2_extract_years_experience_data (some "4006") none none none (some "11")
        "Median" examplePage =
      some ⟨some "4006", none, none, none, "11", "Median", "Not found"⟩ :=
  (v2_other_statistic_no_scan (some "4006") none none none (some "11") "Median"
    examplePage (by decide) (by decide) (by decide)).1

/-! ### Claim C8 — session acquisition fallback contract -/

/-- Claim C8: when all three strategies fail, acquisition returns the
open session at the login endpoint with `authenticated = false` (and no
snapshot written); whenever it authenticates it attempts to persist the
snapshot (written exactly when the write succeeds); and the
authentication result never depends on whether that persist succeeds. -/
theorem login_fallback_contract (e : LoginEnv) :
    (e.profileAuth = false → (e.cookiesLoad = false ∨ e.cookieAuth = false) →
      e.credsAuth = false →
      login_with_selenium e = ⟨false, .loginPage, false⟩) ∧
    ((login_with_selenium e).authenticated = true →
      (login_with_selenium e).snapshotSaved = e.persistOk) ∧
    (∀ b b' : Bool,
      (login_with_selenium { e with persistOk := b }).authenticated =
      (login_with_selenium { e with persistOk := b' }).authenticated) := by
  obtain ⟨p, cl, ca, cr, po⟩ := e
  revert p cl ca cr po
  decide

/-- Witness for `login_fallback_contract`: the all-strategies-fail
environment ends unauthenticated at the login page. -/
theorem login_fallback_contract_witness :
    login_with_selenium envAllFail = ⟨false, .loginPage, false⟩ :=
  (login_fallback_contract envAllFail).1 rfl (Or.inl rfl) rfl

/-! ### Claim C7 — cookie-snapshot load filters -/

/-- Claim C7 (counterexample): an entry with an unparseable (string)
expiry is not discarded on load: `cookieBadExpiry` has a string expiry
and a matching domain, and it is still offered to the session — only its
expiry field has been removed. -/
theorem cookie_bad_expiry_kept_counterexample :
    add_cookies_for_host [cookieBadExpiry] "https://online.erieri.com/" =
      [⟨"session", "v1", some "online.erieri.com", none, none, none⟩] ∧
    add_cookies_for_host [cookieBadExpiry] "https://online.erieri.com/" ≠ [] := by
  constructor
  · rfl
  · decide

/-- Claim C7 (amended): the load admits exactly the sanitized entries
whose normalised domain is non-empty and equals, or is a host-suffix of,
the target netloc; an admitted entry whose stored expiry was a string (or
absent) keeps its identity but loses the expiry field — the entry is not
discarded. -/
theorem cookie_filter_amended (cookies : List Cookie) (host : String) :
    (∀ c ∈ add_cookies_for_host cookies host,
      cookieDomainKey c ≠ "" ∧
      (cookieDomainKey c = host_netloc host ∨
        endsWithSeg (host_netloc host).data (cookieDomainKey c).data = true)) ∧
    (∀ raw ∈ cookies,
      cookieDomainKey (sanitize_cookie raw) ≠ "" →
      (cookieDomainKey (sanitize_cookie raw) = host_netloc host ∨
        endsWithSeg (host_netloc host).data
          (cookieDomainKey (sanitize_cookie raw)).data = true) →
      sanitize_cookie raw ∈ add_cookies_for_host cookies host ∧
      (expiryIsStrOrNone raw.expiry = true → (sanitize_cookie raw).expiry = none)) := by
  constructor
  · intro c hc
    simp only [add_cookies_for_host, List.mem_filterMap] at hc
    obtain ⟨raw, -, hmk⟩ := hc
    by_cases h0 : cookieDomainKey (sanitize_cookie raw) = ""
    · simp [h0] at hmk
    · by_cases h1 : cookieDomainKey (sanitize_cookie raw) = host_netloc host ∨
          endsWithSeg (host_netloc host).data
            (cookieDomainKey (sanitize_cookie raw)).data = true
      · simp only [h0, if_false, if_pos h1, Option.some.injEq] at hmk
        subst hmk
        exact ⟨h0, h1⟩
      · simp [h0, h1] at hmk
  · intro raw hraw h0 h1
    refine ⟨?_, ?_⟩
    · simp only [add_cookies_for_host, List.mem_filterMap]
      exact ⟨raw, hraw, by simp only [h0, if_false, if_pos h1]⟩
    · intro hexp
      simp [sanitize_cookie, hexp]

/-- Witness for `cookie_filter_amended`: a cookie scoped to the parent
domain `".erieri.com"` of the target host is admitted. -/
theorem cookie_filter_amended_witness :
    sanitize_cookie cookieParentDomain ∈
      add_cookies_for_host [cookieParentDomain] "https://online.erieri.com/" :=
  ((cookie_filter_amended [cookieParentDomain] "https://online.erieri.com/").2
    cookieParentDomain (by decide) (by decide) (by decide)).1

/-! ### Claim C2 — statistic-to-column mapping -/

/-- Claim C2 (counterexample): the claim sends every statistic other than
Mean and 75th Percentile to column 4, but V0's default case matches any
statistic containing `"percentile"`: for `"25th Percentile"` on the
example table the extractor reads column five's `"420"`, not column
four's `"310"`. -/
theorem v0_column_mapping_counterexample :
    (v0_extract_years_experience_data (some "11") "25th Percentile"
        examplePage).map V0Extract.mean_value = some "420" ∧
    (v0_extract_years_experience_data (some "11") "25th Percentile"
        examplePage).map V0Extract.mean_value ≠ some "310" := by
  constructor
  · rfl
  · decide

/-- Claim C2 (amended): Mean reads column 4 and 75th Percentile column 5
of the first matching row; V0's remaining case reads column 5 for any
statistic whose lowered text contains `"75th"` or `"percentile"` (hence
also 25th Percentile) and column 4 otherwise (e.g. Median), while V2
scans only for Mean and 75th Percentile and returns the sentinel for
every other statistic; on the spec's example table with statistic
75th Percentile and experience years 11 the extracted value is
`"420"`. -/
theorem statistic_column_mapping_amended :
    v0_statColumn "Mean" = 4 ∧ v0_statColumn "75th Percentile" = 5 ∧
    v0_statColumn "25th Percentile" = 5 ∧ v0_statColumn "Median" = 4 ∧
    (v0_extract_years_experience_data (some "11") "75th Percentile"
        examplePage).map V0Extract.mean_value = some "420" ∧
    (v2_extract_years_experience_data none none none none (some "11")
        "75th Percentile" examplePage).map V2Extract.extracted_value = some "420" ∧
    (v0_extract_years_experience_data (some "11") "Mean"
        examplePage).map V0Extract.mean_value = some "310" ∧
    (v2_extract_years_experience_data none none none none (some "11")
        "Mean" examplePage).map V2Extract.extracted_value = some "310" ∧
    (v2_extract_years_experience_data none none none none (some "11")
        "25th Percentile" examplePage).map V2Extract.extracted_value =
      some "Not found" :=
  ⟨rfl, rfl, rfl, rfl, rfl, rfl, rfl, rfl, rfl⟩

/-! ### Claim C3 — first-match row scan -/

/-- In any scan with enough fuel left, the first row whose key matches
wins: rows before it fail the key test, and the value read is the
matching row's statistic cell, whatever comes after it. -/
theorem scan_rows_first_match_aux (pre : List (List String)) :
    ∀ (fuel : Nat) (row : List String) (rest : List (List String))
      (target : String) (col : Nat) (y v : String),
      pre.length < fuel →
      (∀ r ∈ pre, ∃ z, r.head? = some z ∧ pyStrip z ≠ target) →
      row.head? = some y → pyStrip y = target → row.get? (col - 1) = some v →
      scan_rows target col fuel (pre ++ row :: rest) = pyStrip v := by
  induction pre with
  | nil =>
    intro fuel row rest target col y v hfuel _ hy ht hv
    match fuel, hfuel with
    | f + 1, _ =>
      simp only [List.get?_eq_getElem?] at hv
      simp [scan_rows, hy, ht, hv]
  | cons r pre ih =>
    intro fuel row rest target col y v hfuel hpre hy ht hv
    obtain ⟨z, hz, hzne⟩ := hpre r (List.mem_cons_self r pre)
    match fuel, hfuel with
    | f + 1, hfuel =>
      have hlt : pre.length < f := by
        simpa [List.length_cons, Nat.succ_lt_succ_iff] using hfuel
      simp only [List.cons_append, scan_rows, hz, if_neg hzne]
      exact ih f row rest target col y v hlt
        (fun s hs => hpre s (List.mem_cons_of_mem r hs)) hy ht hv

/-- Claim C3 (counterexample): first-match does not hold for every table
with two matching rows — the scan is bounded to 19 rows, so on
`overBoundTable`, whose two matching rows sit at positions 20 and 21, the
extractor returns the sentinel rather than the earliest matching row's
`"420"`. -/
theorem scan_bound_counterexample :
    overBoundTable.countP (fun r => r.head? == some "11") = 2 ∧
    (v2_extract_years_experience_data none none none none (some "11")
        "75th Percentile" ⟨none, overBoundTable⟩).map V2Extract.extracted_value =
      some "Not found" ∧
    (v2_extract_years_experience_data none none none none (some "11")
        "75th Percentile" ⟨none, overBoundTable⟩).map V2Extract.extracted_value ≠
      some "420" := by
  refine ⟨?_, rfl, ?_⟩
  · decide
  · decide

/-- Claim C3 (amended): within the 19-row scan bound the row scan is
first-match: when every earlier row's key cell differs from the target
and the first matching row's statistic cell is present, the extractor
reads that cell, and the result does not depend on any row after the
match. -/
theorem scan_first_match_amended (pre : List (List String)) (row : List String)
    (rest : List (List String)) (target : String) (col : Nat) (y v : String)
    (hb : pre.length ≤ 18)
    (hpre : ∀ r ∈ pre, ∃ z, r.head? = some z ∧ pyStrip z ≠ target)
    (hy : row.head? = some y) (ht : pyStrip y = target)
    (hv : row.get? (col - 1) = some v) :
    scan_rows target col 19 (pre ++ row :: rest) = pyStrip v ∧
    ∀ rest2, scan_rows target col 19 (pre ++ row :: rest2) =
      scan_rows target col 19 (pre ++ row :: rest) := by
  have hfuel : pre.length < 19 := by omega
  have h1 := scan_rows_first_match_aux pre 19 row rest target col y v hfuel hpre hy ht hv
  refine ⟨h1, fun rest2 => ?_⟩
  have h2 := scan_rows_first_match_aux pre 19 row rest2 target col y v hfuel hpre hy ht hv
  rw [h1, h2]

/-- Witness for `scan_first_match_amended`: on the example table extended
with a second matching row, the scan returns the earlier matching row's
value. -/
theorem scan_first_match_amended_witness :
    scan_rows "11" 5 19 ([["5", "100", "200", "300", "400"]] ++
      ["11", "150", "260", "310", "420"] :: [["11", "1", "2", "3", "999"]]) =
      "420" :=
  (scan_first_match_amended [["5", "100", "200", "300", "400"]]
    ["11", "150", "260", "310", "420"] [["11", "1", "2", "3", "999"]]
    "11" 5 "11" "420" (by decide)
    (by
      intro r hr
      rw [List.mem_singleton] at hr
      subst hr
      exact ⟨"5", rfl, by decide⟩)
    rfl (by decide) rfl).1

/-! ### Claim C4 — absent experience years -/

/-- Claim C4 (counterexample): an empty-string `experienceYears` under
statistic Mean does not yield a sentinel outcome: V2's `int("")` raises,
the outer handler returns `None`, and no outcome record is produced (V0
behaves that way even for `None`). -/
theorem years_absent_counterexample :
    v2_extract_years_experience_data none none none none (some "") "Mean"
        examplePage = none ∧
    v0_extract_years_experience_data none "Mean" examplePage = none :=
  ⟨rfl, rfl⟩

/-- Claim C4 (amended): in V2 an absent (`None`) `experienceYears` under
any statistic other than All Incumbent Average yields the typed outcome
with the `"N/A"` echo and the `"Not found"` sentinel; but an
empty-string `experienceYears` under Mean / 75th Percentile, and in V0
any `experienceYears` that `int(...)` rejects (including `None` and the
empty string), make the extractor catch the conversion error internally
and return no outcome (`None`).  In no case does an exception
propagate. -/
theorem years_absent_amended :
    (∀ (ec lo ind rev : Option String) (dt : String) (page : PageTable),
      dt ≠ "All Incumbent Average" →
      v2_extract_years_experience_data ec lo ind rev none dt page =
        some ⟨ec, lo, ind, rev, "N/A", dt, "Not found"⟩) ∧
    (∀ (ec lo ind rev : Option String) (dt : String) (page : PageTable),
      dt = "Mean" ∨ dt = "75th Percentile" →
      v2_extract_years_experience_data ec lo ind rev (some "") dt page = none) ∧
    (∀ (ye : Option String) (dt : String) (page : PageTable),
      pyIntOpt ye = none →
      v0_extract_years_experience_data ye dt page = none) := by
  refine ⟨?_, ?_, ?_⟩
  · intro ec lo ind rev dt page h1
    by_cases hor : dt = "Mean" ∨ dt = "75th Percentile"
    · simp only [v2_extract_years_experience_data, if_neg h1, if_pos hor]
    · simp only [v2_extract_years_experience_data, if_neg h1, if_neg hor, pyOrNA]
  · intro ec lo ind rev dt page hor
    rcases hor with rfl | rfl
    · rfl
    · rfl
  · intro ye dt page h
    simp only [v0_extract_years_experience_data, h]

/-- Witness for `years_absent_amended`: a `None` experience-years record
with statistic 75th Percentile gets the sentinel outcome. -/
theorem years_absent_amended_witness :
    v2_extract_years_experience_data (some "4006") none none none none
        "75th Percentile" examplePage =
      some ⟨some "4006", none, none, none, "N/A", "75th Percentile", "Not found"⟩ :=
  years_absent_amended.1 (some "4006") none none none "75th Percentile"
    examplePage (by decide)

/-! ### Claim C1 — batch partial-failure semantics -/

/-- Folding the subsequent-record runner appends, in order, the
extraction of every record whose steps succeeded. -/
theorem foldl_subsequent_eq (bs : List RowBehavior) :
    ∀ acc : List V2Extract,
      bs.foldl (fun acc b => (run_subsequent_automation b acc).2) acc =
        acc ++ bs.filterMap (fun r => if r.stepsOk then r.extraction else none) := by
  induction bs with
  | nil =>
    intro acc
    simp
  | cons b bs ih =>
    intro acc
    rw [List.foldl_cons, ih]
    cases hb : b.stepsOk <;> cases he : b.extraction <;>
      simp [run_subsequent_automation, hb, he, List.filterMap_cons]

/-- What the batch runner hands to the result log: nothing when the first
record's steps fail, otherwise the first record's extraction (if any)
followed by the step-successful extractions of the rest. -/
theorem run_multi_automation_characterization (b : RowBehavior)
    (bs : List RowBehavior) :
    run_multi_automation (b :: bs) =
      if b.stepsOk then
        b.extraction.toList ++
          bs.filterMap (fun r => if r.stepsOk then r.extraction else none)
      else [] := by
  cases hb : b.stepsOk <;> cases he : b.extraction <;>
    simp [run_multi_automation, run_complete_automation, hb, he,
      foldl_subsequent_eq]

/-- On all-step-successful records the conditional extraction filter is
plain extraction. -/
theorem filterMap_stepsOk_true (l : List RowBehavior)
    (h : ∀ x ∈ l, x.stepsOk = true) :
    l.filterMap (fun r => if r.stepsOk then r.extraction else none) =
      l.filterMap RowBehavior.extraction := by
  induction l with
  | nil => rfl
  | cons b bs ih =>
    have hb := h b (List.mem_cons_self b bs)
    simp [List.filterMap_cons, hb,
      ih (fun x hx => h x (List.mem_cons_of_mem b hx))]

/-- Extracting from records that all carry a result keeps the length. -/
theorem length_filterMap_extraction (l : List RowBehavior)
    (h : ∀ x ∈ l, x.extraction.isSome = true) :
    (l.filterMap RowBehavior.extraction).length = l.length := by
  induction l with
  | nil => rfl
  | cons b bs ih =>
    obtain ⟨d, hd⟩ := Option.isSome_iff_exists.mp (h b (List.mem_cons_self b bs))
    rw [List.filterMap_cons, hd]
    simp [ih (fun x hx => h x (List.mem_cons_of_mem b hx))]

/-- Claim C1 (counterexample): a `StepFailure` on record 1 aborts the
whole batch: with two records where only the first fails, the result log
receives nothing rather than the one success of record 2. -/
theorem batch_first_record_abort_counterexample :
    run_multi_automation [⟨false, some demoExtractA⟩, ⟨true, some demoExtractB⟩] =
      [] ∧
    run_multi_automation [⟨false, some demoExtractA⟩, ⟨true, some demoExtractB⟩] ≠
      [demoExtractB] := by
  constructor
  · rfl
  · decide

/-- Claim C1 (amended): when one record fails while every other record
fully succeeds, the batch goes on past the failure and logs exactly the
other records' results in order — except that a step failure on record 1
aborts the batch.  Precisely: for a failing record that is either not
the first or whose steps still succeeded (an extraction `None`), the log
is the extractions of the other records in order, `N - 1` of them. -/
theorem batch_partial_failure_amended (pre post : List RowBehavior)
    (bad : RowBehavior)
    (hpre : ∀ x ∈ pre, x.stepsOk = true ∧ x.extraction.isSome = true)
    (hpost : ∀ x ∈ post, x.stepsOk = true ∧ x.extraction.isSome = true)
    (hbad : bad.stepsOk = false ∨ bad.extraction = none)
    (hfirst : pre ≠ [] ∨ bad.stepsOk = true) :
    run_multi_automation (pre ++ bad :: post) =
      (pre ++ post).filterMap RowBehavior.extraction ∧
    (run_multi_automation (pre ++ bad :: post)).length =
      pre.length + post.length := by
  have hbadnone : (if bad.stepsOk then bad.extraction else none) = none := by
    rcases hbad with h | h
    · simp [h]
    · cases bad.stepsOk <;> simp [h]
  have hmain : run_multi_automation (pre ++ bad :: post) =
      (pre ++ post).filterMap RowBehavior.extraction := by
    cases pre with
    | nil =>
      have hok : bad.stepsOk = true := by
        rcases hfirst with h | h
        · exact absurd rfl h
        · exact h
      have hnone : bad.extraction = none := by
        rcases hbad with h | h
        · rw [hok] at h
          exact absurd h (by simp)
        · exact h
      rw [List.nil_append, run_multi_automation_characterization, if_pos hok,
        hnone, filterMap_stepsOk_true post (fun x hx => (hpost x hx).1)]
      simp
    | cons p pre' =>
      have hp := hpre p (List.mem_cons_self p pre')
      obtain ⟨d, hd⟩ := Option.isSome_iff_exists.mp hp.2
      have hpre' : ∀ x ∈ pre', x.stepsOk = true ∧ x.extraction.isSome = true :=
        fun x hx => hpre x (List.mem_cons_of_mem p hx)
      rw [List.cons_append, run_multi_automation_characterization, if_pos hp.1,
        hd]
      rw [List.filterMap_append, List.filterMap_cons, hbadnone,
        filterMap_stepsOk_true pre' (fun x hx => (hpre' x hx).1),
        filterMap_stepsOk_true post (fun x hx => (hpost x hx).1)]
      simp [List.filterMap_cons, hd]
  refine ⟨hmain, ?_⟩
  rw [hmain, length_filterMap_extraction _ ?_, List.length_append]
  intro x hx
  rcases List.mem_append.mp hx with h | h
  · exact (hpre x h).2
  · exact (hpost x h).2

/-- Witness for `batch_partial_failure_amended`: a three-record batch
whose middle record fails its steps still logs the other two results in
order. -/
theorem batch_partial_failure_amended_witness :
    run_multi_automation [⟨true, some demoExtractA⟩, ⟨false, none⟩,
      ⟨true, some demoExtractB⟩] = [demoExtractA, demoExtractB] :=
  (batch_partial_failure_amended [⟨true, some demoExtractA⟩]
    [⟨true, some demoExtractB⟩] ⟨false, none⟩
    (by
      intro x hx
      rw [List.mem_singleton] at hx
      subst hx
      exact ⟨rfl, rfl⟩)
    (by
      intro x hx
      rw [List.mem_singleton] at hx
      subst hx
      exact ⟨rfl, rfl⟩)
    (Or.inl rfl) (Or.inl (by decide))).1

/-! ### Claim C9 — step sequencing and the abbreviated variant -/

/-- The sequencer stops at the first failing step: everything before it
runs, it runs and fails, and nothing after it is touched. -/
theorem executedSteps_abort (perform : Step → Bool) (pre : List Step) (s : Step)
    (post : List Step) (hpre : ∀ t ∈ pre, perform t = true)
    (hs : perform s = false) :
    executedSteps perform (pre ++ s :: post) = pre ++ [s] ∧
    runSteps perform (pre ++ s :: post) = some s := by
  induction pre with
  | nil =>
    simp [executedSteps, runSteps, hs]
  | cons t pre ih =>
    have ht := hpre t (List.mem_cons_self t pre)
    have h := ih (fun u hu => hpre u (List.mem_cons_of_mem t hu))
    simp [executedSteps, runSteps, ht, h.1, h.2]

/-- Claim C9 (counterexample): the abbreviated sequence is not exactly
the full sequence minus the navigation step, and the claimed 9/7 step
counts are inconsistent: for the example record the abbreviated list has
8 steps (not 7) and differs from the full list's tail at the revenue
step, which the full run types with thousands separators and the
abbreviated run types raw. -/
theorem step_sequences_counterexample :
    fullSteps demoRecord = some demoFullList ∧
    subsequentSteps demoRecord ≠ demoFullList.tail ∧
    (subsequentSteps demoRecord).length = 8 ∧
    (subsequentSteps demoRecord).length ≠ 7 := by
  refine ⟨by decide, ?_, rfl, by decide⟩
  decide

/-- Claim C9 (amended): the full sequence has 9 steps and the abbreviated
one the 8 steps obtained by dropping the initial navigation step — agreeing
with the full sequence's tail step-for-step in name, locator and kind,
and literally on the first 7 steps, differing only in the revenue value
typed by the final step; and the sequencer aborts at the first step whose
interaction returns false, executing no later step and reporting that
step. -/
theorem step_sequences_amended (r : InputRecord) (fs : List Step)
    (h : fullSteps r = some fs) :
    fs.length = 9 ∧ (subsequentSteps r).length = 8 ∧
    (subsequentSteps r).map stepShape = fs.tail.map stepShape ∧
    (subsequentSteps r).take 7 = fs.tail.take 7 ∧
    (∀ (perform : Step → Bool) (pre : List Step) (s : Step) (post : List Step),
      (∀ t ∈ pre, perform t = true) → perform s = false →
      executedSteps perform (pre ++ s :: post) = pre ++ [s] ∧
      runSteps perform (pre ++ s :: post) = some s) := by
  unfold fullSteps at h
  cases hrev : pyInt r.revenue with
  | none =>
    rw [hrev] at h
    exact absurd h (by simp)
  | some n =>
    rw [hrev] at h
    rw [Option.some.injEq] at h
    subst h
    exact ⟨rfl, rfl, rfl, rfl,
      fun perform pre s post hp hs => executedSteps_abort perform pre s post hp hs⟩

/-- Witness for `step_sequences_amended`: for the example record the
abbreviated list matches the full tail shape-for-shape, and a failure at
the dropdown step stops the run right there. -/
theorem step_sequences_amended_witness :
    (subsequentSteps demoRecord).map stepShape = demoFullList.tail.map stepShape ∧
    executedSteps demoPerform ([step2] ++ step3 :: [step4]) = [step2, step3] := by
  have h := step_sequences_amended demoRecord demoFullList (by decide)
  exact ⟨h.2.2.1,
    (h.2.2.2.2 demoPerform [step2] step3 [step4]
      (by
        intro t ht
        rw [List.mem_singleton] at ht
        subst ht
        decide)
      (by decide)).1⟩

/-! ### Claim C6 — grammar totality and round-trip: parser lemmas -/

/-- A non-comma character is always appended to the current part. -/
theorem splitStep_not_comma (st : List String × List Char) (c : Char)
    (hc : c ≠ ',') : splitStep st c = (st.1, st.2 ++ [c]) := by
  simp [splitStep, hc]

/-- Folding the splitter over a comma-free segment just appends it to the
current part. -/
theorem fold_seg (seg : List Char) (hnc : ∀ ch ∈ seg, ch ≠ ',') :
    ∀ (ps : List String) (cur : List Char),
      seg.foldl splitStep (ps, cur) = (ps, cur ++ seg) := by
  induction seg with
  | nil =>
    intro ps cur
    simp
  | cons c seg ih =>
    intro ps cur
    rw [List.foldl_cons,
      splitStep_not_comma (ps, cur) c (hnc c (List.mem_cons_self c seg))]
    rw [ih (fun ch hch => hnc ch (List.mem_cons_of_mem c hch)) ps (cur ++ [c])]
    simp

/-- If a non-empty pattern occurs in a list, its first character is a
member of the list. -/
theorem occursIn_head_mem (a : Char) (sub l : List Char)
    (h : occursIn (a :: sub) l = true) : a ∈ l := by
  induction l with
  | nil => simp [occursIn, matchSeg] at h
  | cons b bs ih =>
    rw [occursIn, Bool.or_eq_true] at h
    rcases h with h | h
    · rw [matchSeg, Bool.and_eq_true, beq_iff_eq] at h
      rw [h.1]
      exact List.mem_cons_self b bs
    · exact List.mem_cons_of_mem b (ih h)

/-- A part without the letter `'D'` never triggers the Dallas comma
special case. -/
theorem dallasComma_eq_false (cur : List Char) (h : ∀ ch ∈ cur, ch ≠ 'D') :
    dallasComma cur = false := by
  have hD : ("Dallas" : String).data = 'D' :: ("allas" : String).data := rfl
  unfold dallasComma
  cases hocc : occursIn ("Dallas" : String).data cur with
  | false => rfl
  | true =>
    rw [hD] at hocc
    exact absurd rfl (h 'D' (occursIn_head_mem 'D' _ cur hocc))

/-- A comma flushes a stripped non-blank current part when the Dallas
special case does not fire. -/
theorem splitStep_comma_flush (ps : List String) (cur : List Char)
    (hD : dallasComma cur = false) (hne : trimChars cur ≠ []) :
    splitStep (ps, cur) ',' = (ps ++ [String.mk (trimChars cur)], []) := by
  simp [splitStep, hD, hne]

/-- `dropWhile` keeps a list whose first element fails the predicate. -/
theorem dropWhile_eq_self_of_head (p : Char → Bool) (l : List Char)
    (h : ∀ c, l.head? = some c → p c = false) : l.dropWhile p = l := by
  cases l with
  | nil => rfl
  | cons a t =>
    rw [List.dropWhile_cons_of_neg]
    simp [h a rfl]

/-- A list whose first and last characters are non-whitespace is its own
strip. -/
theorem trimChars_eq_self (l : List Char)
    (h1 : ∀ c, l.head? = some c → isWS c = false)
    (h2 : ∀ c, l.getLast? = some c → isWS c = false) :
    trimChars l = l := by
  unfold trimChars
  rw [dropWhile_eq_self_of_head isWS l h1]
  rw [dropWhile_eq_self_of_head isWS l.reverse
    (fun c hc => h2 c (by rwa [List.head?_reverse] at hc))]
  rw [List.reverse_reverse]

/-- Stripping drops a leading whitespace character. -/
theorem trimChars_cons_ws (a : Char) (l : List Char) (ha : isWS a = true) :
    trimChars (a :: l) = trimChars l := by
  unfold trimChars
  rw [List.dropWhile_cons_of_pos ha]

/-- Unpacking the `plainValue` well-formedness of a field value. -/
theorem plainValue_spec (v : String) (h : plainValue v = true) :
    v.data ≠ [] ∧ (∀ c, v.data.head? = some c → isWS c = false) ∧
    (∀ c, v.data.getLast? = some c → isWS c = false) ∧
    (∀ ch ∈ v.data, ch ≠ ',' ∧ ch ≠ 'D') := by
  unfold plainValue at h
  simp only [Bool.and_eq_true, List.all_eq_true, Bool.not_eq_eq_eq_not,
    Bool.not_true, List.isEmpty_eq_false] at h
  obtain ⟨⟨⟨hne, hh⟩, hl⟩, hall⟩ := h
  refine ⟨hne, ?_, ?_, ?_⟩
  · intro c hc
    rw [hc] at hh
    simpa [nonWSOpt] using hh
  · intro c hc
    rw [hc] at hl
    simpa [nonWSOpt] using hl
  · intro ch hch
    have := hall ch hch
    rw [bne_iff_ne, bne_iff_ne] at this
    exact this

/-- Flushing a first-position `key=value` segment: with a non-whitespace
head, no `'D'` in the key literal, and a well-formed value, the comma
emits the segment verbatim as a part. -/
theorem flush_first_segment (ps : List String) (lit v : String) (a : Char)
    (t : List Char) (hlit : lit.data = a :: t) (ha : isWS a = false)
    (hlitD : ∀ ch ∈ lit.data, ch ≠ 'D') (hv : plainValue v = true) :
    splitStep (ps, lit.data ++ v.data) ',' =
      (ps ++ [String.mk (lit.data ++ v.data)], []) := by
  obtain ⟨hv1, _, hv3, hv4⟩ := plainValue_spec v hv
  have htrim : trimChars (lit.data ++ v.data) = lit.data ++ v.data := by
    apply trimChars_eq_self
    · intro c hc
      rw [hlit, List.cons_append, List.head?_cons, Option.some.injEq] at hc
      rw [← hc]
      exact ha
    · intro c hc
      rw [List.getLast?_append_of_ne_nil _ hv1] at hc
      exact hv3 c hc
  have hD : dallasComma (lit.data ++ v.data) = false := by
    apply dallasComma_eq_false
    intro ch hch
    rcases List.mem_append.mp hch with h | h
    · exact hlitD ch h
    · exact (hv4 ch h).2
  have hne : trimChars (lit.data ++ v.data) ≠ [] := by
    rw [htrim, hlit]
    simp
  rw [splitStep_comma_flush ps _ hD hne, htrim]

/-- Flushing a later `key=value` segment, which carries the separator's
leading space: the comma emits the segment with that space stripped. -/
theorem flush_spaced_segment (ps : List String) (lit v : String) (a : Char)
    (t : List Char) (hlit : lit.data = a :: t) (ha : isWS a = false)
    (hlitD : ∀ ch ∈ lit.data, ch ≠ 'D') (hv : plainValue v = true) :
    splitStep (ps, ' ' :: (lit.data ++ v.data)) ',' =
      (ps ++ [String.mk (lit.data ++ v.data)], []) := by
  obtain ⟨hv1, _, hv3, hv4⟩ := plainValue_spec v hv
  have htrim0 : trimChars (lit.data ++ v.data) = lit.data ++ v.data := by
    apply trimChars_eq_self
    · intro c hc
      rw [hlit, List.cons_append, List.head?_cons, Option.some.injEq] at hc
      rw [← hc]
      exact ha
    · intro c hc
      rw [List.getLast?_append_of_ne_nil _ hv1] at hc
      exact hv3 c hc
  have htrim : trimChars (' ' :: (lit.data ++ v.data)) = lit.data ++ v.data :=
    (trimChars_cons_ws ' ' _ (by decide)).trans htrim0
  have hD : dallasComma (' ' :: (lit.data ++ v.data)) = false := by
    apply dallasComma_eq_false
    intro ch hch
    rcases List.mem_cons.mp hch with rfl | hch
    · decide
    · rcases List.mem_append.mp hch with h | h
      · exact hlitD ch h
      · exact (hv4 ch h).2
  have hne : trimChars (' ' :: (lit.data ++ v.data)) ≠ [] := by
    rw [htrim, hlit]
    simp
  rw [splitStep_comma_flush ps _ hD hne, htrim]

/-- Folding one leading `key=value ,` block of the serialized record. -/
theorem foldl_first_block (ps : List String) (lit v : String)
    (rest : List Char) (a : Char) (t : List Char)
    (hlit : lit.data = a :: t) (ha : isWS a = false)
    (hlitD : ∀ ch ∈ lit.data, ch ≠ 'D') (hlitC : ∀ ch ∈ lit.data, ch ≠ ',')
    (hv : plainValue v = true) :
    ((lit.data ++ v.data) ++ ',' :: rest).foldl splitStep (ps, []) =
      rest.foldl splitStep (ps ++ [String.mk (lit.data ++ v.data)], []) := by
  obtain ⟨_, _, _, hv4⟩ := plainValue_spec v hv
  have hnc : ∀ ch ∈ lit.data ++ v.data, ch ≠ ',' := by
    intro ch hch
    rcases List.mem_append.mp hch with h | h
    · exact hlitC ch h
    · exact (hv4 ch h).1
  rw [List.foldl_append, fold_seg (lit.data ++ v.data) hnc ps [],
    List.nil_append, List.foldl_cons,
    flush_first_segment ps lit v a t hlit ha hlitD hv]

/-- Folding one space-prefixed `key=value ,` block of the serialized
record. -/
theorem foldl_spaced_block (ps : List String) (lit v : String)
    (rest : List Char) (a : Char) (t : List Char)
    (hlit : lit.data = a :: t) (ha : isWS a = false)
    (hlitD : ∀ ch ∈ lit.data, ch ≠ 'D') (hlitC : ∀ ch ∈ lit.data, ch ≠ ',')
    (hv : plainValue v = true) :
    ((' ' :: (lit.data ++ v.data)) ++ ',' :: rest).foldl splitStep (ps, []) =
      rest.foldl splitStep (ps ++ [String.mk (lit.data ++ v.data)], []) := by
  obtain ⟨_, _, _, hv4⟩ := plainValue_spec v hv
  have hnc : ∀ ch ∈ ' ' :: (lit.data ++ v.data), ch ≠ ',' := by
    intro ch hch
    rcases List.mem_cons.mp hch with rfl | hch
    · decide
    · rcases List.mem_append.mp hch with h | h
      · exact hlitC ch h
      · exact (hv4 ch h).1
  rw [List.foldl_append, fold_seg (' ' :: (lit.data ++ v.data)) hnc ps [],
    List.nil_append, List.foldl_cons,
    flush_spaced_segment ps lit v a t hlit ha hlitD hv]

/-- The comma splitting of a serialized well-formed record: the five
`key=value` parts followed by the statistic token. -/
theorem splitParts_serialize (code loc rev ind yrs stat : String)
    (hc : plainValue code = true) (hl : plainValue loc = true)
    (hr : plainValue rev = true) (hi : plainValue ind = true)
    (hy : plainValue yrs = true)
    (hsnc : ∀ ch ∈ stat.data, ch ≠ ',')
    (hstrim : trimChars stat.data = stat.data) (hsne : stat.data ≠ []) :
    splitParts (serializeRecord code loc rev ind yrs stat) =
      [String.mk (("ERI Code=" : String).data ++ code.data),
       String.mk (("ERI Location=" : String).data ++ loc.data),
       String.mk (("Revenue=" : String).data ++ rev.data),
       String.mk (("Industry=" : String).data ++ ind.data),
       String.mk (("Years of Experience=" : String).data ++ yrs.data),
       stat] := by
  have e2 : (", ERI Location=" : String).data =
      ',' :: ' ' :: ("ERI Location=" : String).data := rfl
  have e3 : (", Revenue=" : String).data =
      ',' :: ' ' :: ("Revenue=" : String).data := rfl
  have e4 : (", Industry=" : String).data =
      ',' :: ' ' :: ("Industry=" : String).data := rfl
  have e5 : (", Years of Experience=" : String).data =
      ',' :: ' ' :: ("Years of Experience=" : String).data := rfl
  have e6 : (", " : String).data = [',', ' '] := rfl
  have key1 : (serializeRecord code loc rev ind yrs stat).data =
      ((("ERI Code=" : String).data ++ code.data) ++ ',' ::
        ((' ' :: (("ERI Location=" : String).data ++ loc.data)) ++ ',' ::
          ((' ' :: (("Revenue=" : String).data ++ rev.data)) ++ ',' ::
            ((' ' :: (("Industry=" : String).data ++ ind.data)) ++ ',' ::
              ((' ' :: (("Years of Experience=" : String).data ++ yrs.data)) ++ ',' ::
                (' ' :: stat.data)))))) := by
    simp [serializeRecord, e2, e3, e4, e5, e6]
  have hnc6 : ∀ ch ∈ ' ' :: stat.data, ch ≠ ',' := by
    intro ch hch
    rcases List.mem_cons.mp hch with rfl | hch
    · decide
    · exact hsnc ch hch
  have hfold : (serializeRecord code loc rev ind yrs stat).data.foldl splitStep
      ([], []) =
      ([String.mk (("ERI Code=" : String).data ++ code.data),
        String.mk (("ERI Location=" : String).data ++ loc.data),
        String.mk (("Revenue=" : String).data ++ rev.data),
        String.mk (("Industry=" : String).data ++ ind.data),
        String.mk (("Years of Experience=" : String).data ++ yrs.data)],
       ' ' :: stat.data) := by
    rw [key1]
    rw [foldl_first_block [] "ERI Code=" code _ 'E' ("RI Code=" : String).data
      rfl (by decide) (by decide) (by decide) hc]
    rw [foldl_spaced_block _ "ERI Location=" loc _ 'E'
      ("RI Location=" : String).data rfl (by decide) (by decide) (by decide) hl]
    rw [foldl_spaced_block _ "Revenue=" rev _ 'R' ("evenue=" : String).data
      rfl (by decide) (by decide) (by decide) hr]
    rw [foldl_spaced_block _ "Industry=" ind _ 'I' ("ndustry=" : String).data
      rfl (by decide) (by decide) (by decide) hi]
    rw [foldl_spaced_block _ "Years of Experience=" yrs _ 'Y'
      ("ears of Experience=" : String).data rfl (by decide) (by decide)
      (by decide) hy]
    rw [fold_seg (' ' :: stat.data) hnc6]
    simp
  have htrimstat : trimChars (' ' :: stat.data) = stat.data :=
    (trimChars_cons_ws ' ' _ (by decide)).trans hstrim
  simp only [splitParts, hfold]
  rw [htrimstat, if_neg hsne, string_mk_data]
  simp

/-- A single character occurs in any list containing it. -/
theorem occursIn_singleton_of_mem (a : Char) (l : List Char) (h : a ∈ l) :
    occursIn [a] l = true := by
  induction l with
  | nil => cases h
  | cons b bs ih =>
    rw [occursIn, Bool.or_eq_true]
    rcases List.mem_cons.mp h with rfl | h
    · left
      simp [matchSeg]
    · right
      exact ih h

/-- `split('=', 1)` on a part whose key contains no `'='` separates key
and value at the first `'='`. -/
theorem splitEqOnce_append (k v : List Char) (hk : ∀ ch ∈ k, ch ≠ '=') :
    splitEqOnce (k ++ '=' :: v) = (k, v) := by
  induction k with
  | nil => simp [splitEqOnce]
  | cons c kk ih =>
    have hc := hk c (List.mem_cons_self c kk)
    rw [List.cons_append]
    simp [splitEqOnce, hc,
      ih (fun ch hch => hk ch (List.mem_cons_of_mem c hch))]

/-- `applyPart` on a well-formed `key=value` part assigns the stripped
value under the stripped key. -/
theorem applyPart_keyed (st : ParsedInput) (key v : String)
    (hkeq : ∀ ch ∈ key.data, ch ≠ '=')
    (hktrim : trimChars key.data = key.data)
    (hv2 : ∀ c, v.data.head? = some c → isWS c = false)
    (hv3 : ∀ c, v.data.getLast? = some c → isWS c = false) :
    applyPart st (String.mk (key.data ++ '=' :: v.data)) = applyKV st key v := by
  have hocc : occursIn ("=" : String).data (key.data ++ '=' :: v.data) = true := by
    have he : ("=" : String).data = ['='] := rfl
    rw [he]
    exact occursIn_singleton_of_mem '=' _
      (List.mem_append_right _ (List.mem_cons_self _ _))
  have hd : (String.mk (key.data ++ '=' :: v.data)).data =
      key.data ++ '=' :: v.data := rfl
  unfold applyPart
  rw [hd, if_pos hocc, splitEqOnce_append key.data v.data hkeq, hktrim,
    trimChars_eq_self v.data hv2 hv3, string_mk_data, string_mk_data]

/-- `applyPart` on a bare statistic token records it as the data type. -/
theorem applyPart_stat (st : ParsedInput) (stat : String)
    (hocc : occursIn ("=" : String).data stat.data = false)
    (hmem : stat = "Mean" ∨ stat = "Median" ∨ stat = "25th Percentile" ∨
      stat = "75th Percentile") :
    applyPart st stat = { st with data_type := some stat } := by
  unfold applyPart
  rw [hocc]
  simp only [Bool.false_eq_true, if_false, if_pos hmem]

/-- Claim C6 (counterexample): parsing is not faithful on every grammar
string: with the valid one-part location value `"Dallas"` the hard-coded
comma special case fires on every later separator, gluing revenue,
industry, experience years and the statistic token into the location
value, so those fields are never produced. -/
theorem parse_grammar_counterexample :
    (parse_user_input bareDallasInput).location =
      some "Dallas, Revenue=565000000, Industry=All Industries - Diversified, Years of Experience=11, 75th Percentile" ∧
    (parse_user_input bareDallasInput).revenue = none ∧
    (parse_user_input bareDallasInput).data_type = none :=
  ⟨rfl, rfl, rfl⟩

/-- Claim C6 (amended): parsing never raises (it is a total function of
the input), and on serialized records whose five field values are
non-empty, unpadded, and contain neither a comma nor the letter `'D'`
(so the `"Dallas"` special case cannot fire spuriously) with a statistic
from the fixed token list, parsing produces exactly the five fields and
the one statistic, and re-serializing the parsed record and parsing
again yields the same record. -/
theorem parse_serialize_round (code loc rev ind yrs stat : String)
    (hc : plainValue code = true) (hl : plainValue loc = true)
    (hr : plainValue rev = true) (hi : plainValue ind = true)
    (hy : plainValue yrs = true)
    (hs : stat = "Mean" ∨ stat = "Median" ∨ stat = "25th Percentile" ∨
      stat = "75th Percentile") :
    parse_user_input (serializeRecord code loc rev ind yrs stat) =
      ⟨some code, some loc, some rev, some ind, some yrs, some stat⟩ ∧
    (reserialize (parse_user_input (serializeRecord code loc rev ind yrs stat))).map
        parse_user_input =
      some (parse_user_input (serializeRecord code loc rev ind yrs stat)) := by
  have hsnc : ∀ ch ∈ stat.data, ch ≠ ',' := by
    rcases hs with rfl | rfl | rfl | rfl <;> decide
  have hstrim : trimChars stat.data = stat.data := by
    rcases hs with rfl | rfl | rfl | rfl <;> decide
  have hsne : stat.data ≠ [] := by
    rcases hs with rfl | rfl | rfl | rfl <;> decide
  have hsocc : occursIn ("=" : String).data stat.data = false := by
    rcases hs with rfl | rfl | rfl | rfl <;> decide
  obtain ⟨-, hc2, hc3, -⟩ := plainValue_spec code hc
  obtain ⟨-, hl2, hl3, -⟩ := plainValue_spec loc hl
  obtain ⟨-, hr2, hr3, -⟩ := plainValue_spec rev hr
  obtain ⟨-, hi2, hi3, -⟩ := plainValue_spec ind hi
  obtain ⟨-, hy2, hy3, -⟩ := plainValue_spec yrs hy
  have ep1 : String.mk (("ERI Code=" : String).data ++ code.data) =
      String.mk (("ERI Code" : String).data ++ '=' :: code.data) := rfl
  have ep2 : String.mk (("ERI Location=" : String).data ++ loc.data) =
      String.mk (("ERI Location" : String).data ++ '=' :: loc.data) := rfl
  have ep3 : String.mk (("Revenue=" : String).data ++ rev.data) =
      String.mk (("Revenue" : String).data ++ '=' :: rev.data) := rfl
  have ep4 : String.mk (("Industry=" : String).data ++ ind.data) =
      String.mk (("Industry" : String).data ++ '=' :: ind.data) := rfl
  have ep5 : String.mk (("Years of Experience=" : String).data ++ yrs.data) =
      String.mk (("Years of Experience" : String).data ++ '=' :: yrs.data) := rfl
  have a1 : applyKV emptyParsed "ERI Code" code =
      ⟨some code, none, none, none, none, none⟩ := by
    simp [applyKV, emptyParsed]
  have a2 : applyKV ⟨some code, none, none, none, none, none⟩
      "ERI Location" loc = ⟨some code, some loc, none, none, none, none⟩ := by
    simp [applyKV]
  have a3 : applyKV ⟨some code, some loc, none, none, none, none⟩
      "Revenue" rev = ⟨some code, some loc, some rev, none, none, none⟩ := by
    simp [applyKV]
  have a4 : applyKV ⟨some code, some loc, some rev, none, none, none⟩
      "Industry" ind = ⟨some code, some loc, some rev, some ind, none, none⟩ := by
    simp [applyKV]
  have a5 : applyKV ⟨some code, some loc, some rev, some ind, none, none⟩
      "Years of Experience" yrs =
      ⟨some code, some loc, some rev, some ind, some yrs, none⟩ := by
    simp [applyKV]
  have hmain : parse_user_input (serializeRecord code loc rev ind yrs stat) =
      ⟨some code, some loc, some rev, some ind, some yrs, some stat⟩ := by
    unfold parse_user_input
    rw [splitParts_serialize code loc rev ind yrs stat hc hl hr hi hy
      hsnc hstrim hsne]
    rw [List.foldl_cons, ep1,
      applyPart_keyed emptyParsed "ERI Code" code (by decide) (by decide) hc2 hc3,
      a1]
    rw [List.foldl_cons, ep2,
      applyPart_keyed _ "ERI Location" loc (by decide) (by decide) hl2 hl3, a2]
    rw [List.foldl_cons, ep3,
      applyPart_keyed _ "Revenue" rev (by decide) (by decide) hr2 hr3, a3]
    rw [List.foldl_cons, ep4,
      applyPart_keyed _ "Industry" ind (by decide) (by decide) hi2 hi3, a4]
    rw [List.foldl_cons, ep5,
      applyPart_keyed _ "Years of Experience" yrs (by decide) (by decide)
        hy2 hy3, a5]
    rw [List.foldl_cons, applyPart_stat _ stat hsocc hs]
    rfl
  refine ⟨hmain, ?_⟩
  rw [hmain]
  simp [reserialize, hmain]

/-- Witness for `parse_serialize_round`: a serialized record with plain
field values round-trips. -/
theorem parse_serialize_round_witness :
    parse_user_input (serializeRecord "4006" "Tokyo" "565000000" "Retail"
        "11" "Mean") =
      ⟨some "4006", some "Tokyo", some "565000000", some "Retail", some "11",
        some "Mean"⟩ :=
  (parse_serialize_round "4006" "Tokyo" "565000000" "Retail" "11" "Mean"
    (by decide) (by decide) (by decide) (by decide) (by decide)
    (Or.inl rfl)).1

end ERI
